import Mathlib

/-!
# Verification of the CI/CD leaderboard scorer (`src/score.mjs`)

Shallow embedding of the scorer's data model, probe registry, audit
executor and aggregator, together with proofs of the specification
claims about them.

Modelling conventions:
* JavaScript strings are modelled as `List Char`; `a.includes b`,
  `a.startsWith b`, `a.endsWith b` become substring / `isPrefixOf` /
  `isSuffixOf` tests, and `toLowerCase` becomes `List.map Char.toLower`
  (the two agree on the ASCII texts the scorer handles).
* Every GitHub API response the script can observe is a field of
  `RepoState`; `null` responses (non-OK HTTP) are `none`.
* A probe `run` function that can throw is modelled at the executor
  boundary by an `Except Str Verdict`-valued evaluation map: `.error m`
  stands for a thrown exception whose `message` is `m`.
* `Array.prototype.sort` (stable since ES2019) with the comparator
  `(a, b) => b.total - a.total` is modelled by the stable
  `List.mergeSort` with the boolean order `b.total ≤ a.total`.
-/

namespace CicdScore

/-- JavaScript strings, modelled as lists of characters. -/
abbrev Str := List Char

/-- The character list of a string literal. -/
def str (s : String) : Str := s.data

/-- `s.toLowerCase()` (ASCII). -/
def lowerS (s : Str) : Str := s.map Char.toLower

/-- `hay.includes(needle)`: substring test. -/
def includesS (hay needle : Str) : Bool :=
  hay.tails.any (fun t => needle.isPrefixOf t)

/-- JavaScript string truthiness: non-empty. -/
def truthyS (c : Str) : Bool := !c.isEmpty

/-- Truthiness of a nullable string (`null`/`undefined` and `""` are falsy). -/
def truthyOptS : Option Str → Bool
  | none => false
  | some c => truthyS c

/-- Decimal rendering of a natural number (template-literal interpolation). -/
def natStr (n : Nat) : Str := (toString n).data

/-- `a || b` for a nullable string `a` (JS null-or-empty coalescing). -/
def jsOr (a : Option Str) (b : Str) : Str :=
  match a with
  | some c => if c.isEmpty then b else c
  | none => b

/-- `list.join(", ")`-style separator join. -/
def joinSep (sep : Str) : List Str → Str
  | [] => []
  | [x] => x
  | x :: xs => x ++ sep ++ joinSep sep xs

/-- One entry of the recursive git tree (the script only reads `path`). -/
structure TreeEntry where
  path : Str
deriving DecidableEq

/-- One workflow run summary as consumed by the script. -/
structure RunSummary where
  id : Nat
  conclusion : Option Str
  status : Str
  run_number : Nat
  created_at : Int
  updated_at : Int
deriving DecidableEq

/-- One job of a workflow run. -/
structure Job where
  name : Str
  conclusion : Option Str
deriving DecidableEq

/-- One artifact of a workflow run (only `name` is read). -/
structure Artifact where
  name : Str
deriving DecidableEq

/-- Branch-protection payload as consumed by the script. -/
structure BranchProtection where
  message : Option Str
  required_pull_request_reviews : Bool
deriving DecidableEq

/-- One roster record from `teams.json`. -/
structure Team where
  team : Str
  members : List Str
  repo : Str
  deploy_url : Option Str
deriving DecidableEq

/-- The remote state one repository audit can observe.  Each field is the
response to one of the fixed API requests the script issues; `none` is a
non-OK (`!res.ok`) response. -/
structure RepoState where
  /-- `GET /git/trees/main?recursive=1`, as the `.tree` array. -/
  tree : Option (List TreeEntry)
  /-- `raw.githubusercontent.com` file fetch by path. -/
  file : Str → Option Str
  /-- `GET /actions/runs?branch=main&per_page=1`, as `.workflow_runs`. -/
  runsMain1 : Option (List RunSummary)
  /-- `GET /actions/runs?branch=main&status=success&per_page=3`, as `.workflow_runs`. -/
  runsSuccess3 : Option (List RunSummary)
  /-- `GET /actions/runs/{id}/jobs`, as `.jobs`. -/
  jobs : Nat → Option (List Job)
  /-- `GET /actions/runs/{id}/artifacts`, as `.artifacts`. -/
  artifacts : Nat → Option (List Artifact)
  /-- `GET /packages?package_type=container`. -/
  packages : Option (List Unit)
  /-- `GET /branches/main/protection`. -/
  protection : Option BranchProtection
  /-- Outcome of `fetch(url)` on a deploy URL: status code, or the thrown
  error's message (network error / 10s abort). -/
  http : Str → Except Str Nat

/-- A probe verdict: `{ pass, detail }`. -/
structure Verdict where
  pass : Bool
  detail : Str
deriving DecidableEq

/-- Workflow-file enumeration shared by all pipeline-content probes:
`tree.filter(f => f.path.startsWith(".github/workflows/") && f.path.endsWith(".yml"))`. -/
def wfFilter (t : List TreeEntry) : List TreeEntry :=
  t.filter (fun f =>
    (str ".github/workflows/").isPrefixOf f.path && (str ".yml").isSuffixOf f.path)

/-- The `for (const wf of wfFiles) { const content = await ghRaw(...); if
(!content) continue; if (hit content) return ...; }` loop shape: first
workflow file whose fetched, non-empty content satisfies `hit`. -/
def findWf (fetch : Str → Option Str) (hit : Str → Bool) :
    List TreeEntry → Option (TreeEntry × Str)
  | [] => none
  | wf :: rest =>
    match fetch wf.path with
    | none => findWf fetch hit rest
    | some c =>
      if c.isEmpty then findWf fetch hit rest
      else if hit c then some (wf, c) else findWf fetch hit rest

/-! ## Probe bodies (the `run` members of `CHECKS`) -/

/-- `pipeline_exists.run`. -/
def pipeline_exists (st : RepoState) : Verdict :=
  match st.tree with
  | none => ⟨false, str "Cannot read repo tree"⟩
  | some t =>
    let wf := wfFilter t
    ⟨decide (wf.length > 0), natStr wf.length ++ str " workflow(s) found"⟩

/-- `pipeline_green.run`. -/
def pipeline_green (st : RepoState) : Verdict :=
  match st.runsMain1 with
  | none => ⟨false, str "No runs found"⟩
  | some [] => ⟨false, str "No runs found"⟩
  | some (last :: _) =>
    ⟨decide (last.conclusion = some (str "success")),
      str "Last run: " ++ jsOr last.conclusion last.status ++
        str " (#" ++ natStr last.run_number ++ str ")"⟩

/-- Keyword test of `lint_pass` (computed on the lowercased content). -/
def lintHit (c : Str) : Bool :=
  let lower := lowerS c
  includesS lower (str "lint") || includesS lower (str "ruff") ||
  includesS lower (str "flake8") || includesS lower (str "pylint") ||
  includesS lower (str "eslint") || includesS lower (str "prettier")

/-- `lint_pass.run`. -/
def lint_pass (st : RepoState) : Verdict :=
  match st.tree with
  | none => ⟨false, str "Cannot read repo"⟩
  | some t =>
    match findWf st.file lintHit (wfFilter t) with
    | some (wf, _) => ⟨true, str "Lint found in " ++ wf.path⟩
    | none => ⟨false, str "No lint step found in workflows"⟩

/-! ### `no_secrets_in_code` and its secret patterns -/

/-- JS `\s` restricted to the ASCII whitespace the scanned sources use. -/
def isWsJS (c : Char) : Bool :=
  c = ' ' || c = '\t' || c = '\n' || c = '\r' ||
  c = Char.ofNat 11 || c = Char.ofNat 12

/-- A single or double quote, the class `["']`. -/
def isQuoteChar (c : Char) : Bool := c = Char.ofNat 34 || c = Char.ofNat 39

/-- `[a-zA-Z0-9]`. -/
def isAlnumAscii (c : Char) : Bool :=
  (decide ('a' ≤ c) && decide (c ≤ 'z')) ||
  (decide ('A' ≤ c) && decide (c ≤ 'Z')) ||
  (decide ('0' ≤ c) && decide (c ≤ '9'))

/-- The alternatives of the credential-assignment pattern, lowercased for
the `/i` flag. -/
def secretKeywords : List Str :=
  [str "secret_key", str "api_key", str "db_password", str "password"]

/-- `/(?:SECRET_KEY|API_KEY|DB_PASSWORD|PASSWORD)\s*=\s*["'][^"']{6,}["']/i`
tested against the lowercased content (equivalent to the `/i` regex: the
non-letter part of the pattern is case-stable and `toLowerCase` never
creates or destroys a quote). -/
def matchKeyAssign (l : Str) : Bool :=
  l.tails.any fun t =>
    secretKeywords.any fun kw =>
      kw.isPrefixOf t &&
        match (t.drop kw.length).dropWhile isWsJS with
        | '=' :: v =>
          match v.dropWhile isWsJS with
          | q :: rest =>
            isQuoteChar q &&
            decide (6 ≤ (rest.takeWhile (fun c => !isQuoteChar c)).length) &&
            !(rest.dropWhile (fun c => !isQuoteChar c)).isEmpty
          | [] => false
        | _ => false

/-- `/sk-proj-[a-zA-Z0-9]+/` (case-sensitive). -/
def matchSkProj (s : Str) : Bool :=
  s.tails.any fun t =>
    (str "sk-proj-").isPrefixOf t &&
      match t.drop 8 with
      | c :: _ => isAlnumAscii c
      | [] => false

/-- Disjunction of the four secret patterns, in source order:
the `/i` credential assignment, `sk-proj-` keys, `/super_secret/i`,
and `admin123`. -/
def matchesSecretPattern (s : Str) : Bool :=
  matchKeyAssign (lowerS s) || matchSkProj s ||
  includesS (lowerS s) (str "super_secret") || includesS s (str "admin123")

/-- The fixed list of files `no_secrets_in_code` scans. -/
def secretFiles : List Str :=
  [str "main.py", str "app.js", str "database/database.py", str "database/database.js"]

/-- The file loop of `no_secrets_in_code`: first file with fetched,
non-empty content matching a pattern fails the probe; exhausting the list
passes it. -/
def noSecretsScan (fetch : Str → Option Str) : List Str → Verdict
  | [] => ⟨true, str "No hardcoded secrets detected"⟩
  | f :: rest =>
    match fetch f with
    | none => noSecretsScan fetch rest
    | some c =>
      if c.isEmpty then noSecretsScan fetch rest
      else if matchesSecretPattern c then ⟨false, str "Secret found in " ++ f⟩
      else noSecretsScan fetch rest

/-- `no_secrets_in_code.run`. -/
def no_secrets_in_code (st : RepoState) : Verdict :=
  noSecretsScan st.file secretFiles

/-! ### `tests_exist`, `tests_pass`, `coverage_70` -/

/-- Does the path end in `.py`, `.js` or `.ts` (on the lowered path)? -/
def testExt (b : Str) : Bool :=
  (str ".py").isSuffixOf b || (str ".js").isSuffixOf b || (str ".ts").isSuffixOf b

/-- The test-file naming test of `tests_exist`, the disjunction of
`/test[_s]?.*\.(py|js|ts)$/i`, `/.*\.test\.(js|ts)$/i`,
`/.*\.spec\.(js|ts)$/i` and `/.*_test\.py$/i`.  The first (unanchored)
regex matches exactly when some occurrence of `test` is followed, at the
very end of the path, by a `.py`/`.js`/`.ts` extension (`[_s]?` is
subsumed by `.*`); the other three are end-anchored literal suffixes. -/
def isTestFile (p : Str) : Bool :=
  let l := lowerS p
  (l.tails.any fun t => (str "test").isPrefixOf t && testExt (t.drop 4)) ||
  (str ".test.js").isSuffixOf l || (str ".test.ts").isSuffixOf l ||
  (str ".spec.js").isSuffixOf l || (str ".spec.ts").isSuffixOf l ||
  (str "_test.py").isSuffixOf l

/-- Keyword test of the CI-runner loop of `tests_exist`. -/
def testsCiHit (c : Str) : Bool :=
  let lower := lowerS c
  includesS lower (str "pytest") || includesS lower (str "jest") ||
  includesS lower (str "vitest") || includesS lower (str "npm test") ||
  includesS lower (str "npm run test")

/-- `tests_exist.run`. -/
def tests_exist (st : RepoState) : Verdict :=
  match st.tree with
  | none => ⟨false, str "Cannot read repo"⟩
  | some t =>
    let testFiles := t.filter (fun f => isTestFile f.path)
    if testFiles.length = 0 then ⟨false, str "No test files found"⟩
    else
      match findWf st.file testsCiHit (wfFilter t) with
      | some _ => ⟨true, natStr testFiles.length ++ str " test file(s), tests run in CI"⟩
      | none => ⟨false, natStr testFiles.length ++ str " test file(s) but not run in CI"⟩

/-- The job-name test of `tests_pass`: name contains `test`, `ci` or
`build`, case-insensitively. -/
def jobNameHit (n : Str) : Bool :=
  let l := lowerS n
  includesS l (str "test") || includesS l (str "ci") || includesS l (str "build")

/-- Template-literal rendering of a nullable job conclusion. -/
def conclStr : Option Str → Str
  | some c => c
  | none => str "null"

/-- `tests_pass.run`.  Note the job search is `jobs.find(...)`: only the
first job whose name matches is inspected. -/
def tests_pass (st : RepoState) : Verdict :=
  match st.runsMain1 with
  | none => ⟨false, str "No runs"⟩
  | some [] => ⟨false, str "No runs"⟩
  | some (last :: _) =>
    if last.conclusion ≠ some (str "success") then ⟨false, str "Pipeline not green"⟩
    else
      match st.jobs last.id with
      | none => ⟨false, str "Cannot read jobs"⟩
      | some jobs =>
        match jobs.find? (fun j => jobNameHit j.name) with
        | some testJob =>
          ⟨decide (testJob.conclusion = some (str "success")),
            str "Job \"" ++ testJob.name ++ str "\": " ++ conclStr testJob.conclusion⟩
        | none => ⟨false, str "No test job found"⟩

/-- Keyword test of the coverage loop (case-sensitive, as in the source). -/
def covHit (c : Str) : Bool :=
  includesS c (str "--cov") || includesS c (str "coverage") || includesS c (str "--coverage")

/-- Artifact-name test of `coverage_70`. -/
def covArtifactHit (a : Artifact) : Bool :=
  includesS (lowerS a.name) (str "coverage") || includesS (lowerS a.name) (str "cov")

/-- `coverage_70.run`. -/
def coverage_70 (st : RepoState) : Verdict :=
  match st.tree with
  | none => ⟨false, str "Cannot read repo"⟩
  | some t =>
    let hasCoverage := (findWf st.file covHit (wfFilter t)).isSome
    if !hasCoverage then ⟨false, str "No coverage step found in CI"⟩
    else
      match st.runsMain1 with
      | none => ⟨false, str "No runs"⟩
      | some [] => ⟨false, str "No runs"⟩
      | some (r0 :: _) =>
        let covArtifact :=
          match st.artifacts r0.id with
          | some arts => arts.find? covArtifactHit
          | none => none
        let isGreen := decide (r0.conclusion = some (str "success"))
        ⟨hasCoverage && isGreen,
          if hasCoverage then
            str "Coverage in CI, pipeline " ++
              (if isGreen then str "green ✅" else str "red ❌") ++
              (if covArtifact.isSome then str ", artifact found" else str "")
          else str "No coverage"⟩

/-! ### Docker, intermediate and advanced probes -/

/-- `dockerfile_exists.run`. -/
def dockerfile_exists (st : RepoState) : Verdict :=
  let content := st.file (str "Dockerfile")
  ⟨truthyOptS content,
    if truthyOptS content then str "Dockerfile found" else str "No Dockerfile at root"⟩

/-- Keyword test of `docker_builds` — case-SENSITIVE: the source tests
`content` directly, without `toLowerCase()`. -/
def dockerHit (c : Str) : Bool :=
  includesS c (str "docker") &&
    (includesS c (str "build") || includesS c (str "build-push"))

/-- `docker_builds.run`. -/
def docker_builds (st : RepoState) : Verdict :=
  match st.tree with
  | none => ⟨false, str "Cannot read repo"⟩
  | some t =>
    match findWf st.file dockerHit (wfFilter t) with
    | some (wf, _) => ⟨true, str "Docker build in " ++ wf.path⟩
    | none => ⟨false, str "No docker build step in CI"⟩

/-- The fixed security-scanner keyword list. -/
def secKeywords : List Str :=
  [str "trivy", str "bandit", str "snyk", str "codeql", str "npm audit",
   str "pip-audit", str "safety", str "gitleaks", str "semgrep", str "grype"]

/-- `keywords.filter(k => lower.includes(k))` for `security_scan`. -/
def secFound (c : Str) : List Str :=
  secKeywords.filter (fun k => includesS (lowerS c) k)

/-- `security_scan.run`. -/
def security_scan (st : RepoState) : Verdict :=
  match st.tree with
  | none => ⟨false, str "Cannot read repo"⟩
  | some t =>
    match findWf st.file (fun c => !(secFound c).isEmpty) (wfFilter t) with
    | some (wf, c) =>
      ⟨true, str "Found: " ++ joinSep (str ", ") (secFound c) ++ str " in " ++ wf.path⟩
    | none => ⟨false, str "No security scan found in workflows"⟩

/-- The workflow tail of `ghcr_published`: scan workflows for a
`ghcr.io` + `push` mention (case-sensitive). -/
def ghcrFromWf (st : RepoState) : Verdict :=
  match st.tree with
  | none => ⟨false, str "No packages found"⟩
  | some t =>
    match findWf st.file
        (fun c => includesS c (str "ghcr.io") && includesS c (str "push")) (wfFilter t) with
    | some (wf, _) => ⟨true, str "GHCR push configured in " ++ wf.path⟩
    | none => ⟨false, str "No container packages found"⟩

/-- `ghcr_published.run`. -/
def ghcr_published (st : RepoState) : Verdict :=
  match st.packages with
  | some ps =>
    if ps.length > 0 then ⟨true, natStr ps.length ++ str " package(s) published"⟩
    else ghcrFromWf st
  | none => ghcrFromWf st

/-- Sonar configuration files found in the tree. -/
def sonarFilter (t : List TreeEntry) : List TreeEntry :=
  t.filter (fun f =>
    includesS f.path (str "sonar-project.properties") || includesS f.path (str "sonarcloud"))

/-- The fixed quality-gate keyword list. -/
def qualityKeywords : List Str :=
  [str "sonar", str "codeclimate", str "codecov", str "quality"]

/-- `keywords.filter(k => lower.includes(k))` for `quality_gate`. -/
def qualityFound (c : Str) : List Str :=
  qualityKeywords.filter (fun k => includesS (lowerS c) k)

/-- `quality_gate.run`. -/
def quality_gate (st : RepoState) : Verdict :=
  match st.tree with
  | none => ⟨false, str "Cannot read repo"⟩
  | some t =>
    let sonarFiles := sonarFilter t
    match findWf st.file (fun c => !(qualityFound c).isEmpty) (wfFilter t) with
    | some (_, c) => ⟨true, str "Found: " ++ joinSep (str ", ") (qualityFound c)⟩
    | none =>
      if sonarFiles.length > 0 then ⟨true, str "Sonar config found"⟩
      else ⟨false, str "No quality gate configured"⟩

/-- `deployed.run`.  The probe only touches the network when a truthy
`deploy_url` is present; `res.ok` is a status in 200–299; a thrown fetch
error (network failure or the 10 s abort) is the `.error` case. -/
def deployed (st : RepoState) (team : Team) : Verdict :=
  match team.deploy_url with
  | none => ⟨false, str "No deploy_url in teams.json"⟩
  | some url =>
    if url.isEmpty then ⟨false, str "No deploy_url in teams.json"⟩
    else
      match st.http url with
      | .ok status =>
        ⟨decide (200 ≤ status) && decide (status ≤ 299),
          url ++ str " → HTTP " ++ natStr status⟩
      | .error msg => ⟨false, url ++ str " → " ++ msg⟩

/-- `branch_protection.run`. -/
def branch_protection (st : RepoState) : Verdict :=
  match st.protection with
  | none => ⟨false, str "No branch protection"⟩
  | some prot =>
    if truthyOptS prot.message then ⟨false, str "No branch protection"⟩
    else
      ⟨prot.required_pull_request_reviews,
        if prot.required_pull_request_reviews then str "PR required before merge ✅"
        else str "Protection exists but PR not required"⟩

/-- Keyword test of `auto_deploy` (on the lowercased content). -/
def autoDeployHit (c : Str) : Bool :=
  let lower := lowerS c
  (includesS lower (str "deploy") || includesS lower (str "render") ||
   includesS lower (str "fly.io") || includesS lower (str "railway")) &&
  (includesS lower (str "push") && includesS lower (str "main"))

/-- `auto_deploy.run`. -/
def auto_deploy (st : RepoState) : Verdict :=
  match st.tree with
  | none => ⟨false, str "Cannot read repo"⟩
  | some t =>
    match findWf st.file autoDeployHit (wfFilter t) with
    | some (wf, _) => ⟨true, str "Deploy on push to main in " ++ wf.path⟩
    | none => ⟨false, str "No auto-deploy workflow found"⟩

/-- Keyword test of `multi_env` (on the lowercased content). -/
def multiEnvHit (c : Str) : Bool :=
  let lower := lowerS c
  let envs := ([str "staging", str "production", str "prod", str "dev"]).filter
    (fun e => includesS lower (str "environment: " ++ e) || includesS lower (str "environment:\n"))
  decide (envs.length ≥ 2) ||
    (includesS lower (str "staging") && includesS lower (str "prod"))

/-- `multi_env.run`. -/
def multi_env (st : RepoState) : Verdict :=
  match st.tree with
  | none => ⟨false, str "Cannot read repo"⟩
  | some t =>
    match findWf st.file multiEnvHit (wfFilter t) with
    | some _ => ⟨true, str "Multiple environments detected"⟩
    | none => ⟨false, str "Single environment or none"⟩

/-- `avgMin.toFixed(1)` (exact rational rounding; the floating-point
rounding of the original cannot differ on the integer-millisecond inputs
the claims touch, and no claim depends on this string). -/
def toFixed1 (q : ℚ) : Str :=
  let n : Int := round (q * 10)
  (if n < 0 then str "-" else str "") ++
    natStr (n.natAbs / 10) ++ str "." ++ natStr (n.natAbs % 10)

/-- `pipeline_fast.run`. -/
def pipeline_fast (st : RepoState) : Verdict :=
  match st.runsSuccess3 with
  | none => ⟨false, str "No successful runs"⟩
  | some [] => ⟨false, str "No successful runs"⟩
  | some runs =>
    let totalMs : Int := runs.foldl (fun acc r => acc + (r.updated_at - r.created_at)) 0
    let count : Nat := runs.length
    let avgMin : ℚ := (totalMs : ℚ) / (count : ℚ) / 60000
    ⟨decide (avgMin < 3),
      str "Average: " ++ toFixed1 avgMin ++ str " min (last " ++ natStr count ++ str " runs)"⟩

/-- `dependabot.run`. -/
def dependabot (st : RepoState) : Verdict :=
  if truthyOptS (st.file (str ".github/dependabot.yml")) then
    ⟨true, str "dependabot.yml found"⟩
  else if truthyOptS (st.file (str "renovate.json")) then
    ⟨true, str "renovate.json found"⟩
  else if truthyOptS (st.file (str ".github/renovate.json")) then
    ⟨true, str ".github/renovate.json found"⟩
  else ⟨false, str "No dependency update config"⟩

/-! ## The probe registry `CHECKS` -/

/-- One registry entry: `{ points, category, label, run }`. -/
structure Check where
  points : Nat
  category : Str
  label : Str
  run : RepoState → Team → Verdict

/-- The fixed probe registry, in source (insertion) order.
`Object.entries(CHECKS)` is the association list below. -/
def CHECKS : List (Str × Check) := [
  (str "pipeline_exists",
    ⟨5, str "fundamentals", str "Pipeline exists", fun st _ => pipeline_exists st⟩),
  (str "pipeline_green",
    ⟨5, str "fundamentals", str "Pipeline green on main", fun st _ => pipeline_green st⟩),
  (str "lint_pass",
    ⟨5, str "fundamentals", str "Lint step in pipeline", fun st _ => lint_pass st⟩),
  (str "no_secrets_in_code",
    ⟨5, str "fundamentals", str "No hardcoded secrets", fun st _ => no_secrets_in_code st⟩),
  (str "tests_exist",
    ⟨10, str "fundamentals", str "Tests exist in pipeline", fun st _ => tests_exist st⟩),
  (str "tests_pass",
    ⟨5, str "fundamentals", str "Tests pass", fun st _ => tests_pass st⟩),
  (str "coverage_70",
    ⟨10, str "fundamentals", str "Coverage ≥ 70%", fun st _ => coverage_70 st⟩),
  (str "dockerfile_exists",
    ⟨5, str "fundamentals", str "Dockerfile exists", fun st _ => dockerfile_exists st⟩),
  (str "docker_builds",
    ⟨5, str "fundamentals", str "Docker build in CI", fun st _ => docker_builds st⟩),
  (str "security_scan",
    ⟨10, str "intermediate", str "Security scan in CI", fun st _ => security_scan st⟩),
  (str "ghcr_published",
    ⟨10, str "intermediate", str "Image on GHCR", fun st _ => ghcr_published st⟩),
  (str "quality_gate",
    ⟨10, str "intermediate", str "Quality gate (SonarCloud etc.)", fun st _ => quality_gate st⟩),
  (str "deployed",
    ⟨10, str "intermediate", str "App deployed (HTTP 200)", fun st team => deployed st team⟩),
  (str "branch_protection",
    ⟨5, str "advanced", str "Branch protection on main", fun st _ => branch_protection st⟩),
  (str "auto_deploy",
    ⟨10, str "advanced", str "Auto-deploy on push to main", fun st _ => auto_deploy st⟩),
  (str "multi_env",
    ⟨10, str "advanced", str "Multiple environments", fun st _ => multi_env st⟩),
  (str "pipeline_fast",
    ⟨5, str "advanced", str "Pipeline < 3 minutes", fun st _ => pipeline_fast st⟩),
  (str "dependabot",
    ⟨5, str "advanced", str "Dependabot/Renovate configured", fun st _ => dependabot st⟩)]

/-! ## Audit executor (`scoreTeam`) and aggregator (`main`) -/

/-- One per-probe result object as stored in `results`. -/
structure ProbeResult where
  pass : Bool
  detail : Str
  points : Nat
  label : Str
  category : Str
deriving DecidableEq

/-- One per-repository audit, the return value of `scoreTeam`. -/
structure Audit where
  team : Str
  members : List Str
  repo : Str
  deploy_url : Option Str
  total : Nat
  maxTotal : Nat
  results : List (Str × ProbeResult)
deriving DecidableEq

/-- The body of the `for (const [key, check] of Object.entries(CHECKS))`
loop: `evalRun kv` is the outcome of `await check.run(owner, repo, team)` —
`.ok` a returned verdict, `.error m` an exception with message `m`.  The
accumulator is `(results, total, maxTotal)`. -/
def scoreStep (evalRun : Str × Check → Except Str Verdict)
    (acc : List (Str × ProbeResult) × Nat × Nat) (kv : Str × Check) :
    List (Str × ProbeResult) × Nat × Nat :=
  match evalRun kv with
  | .ok result =>
    (acc.1 ++ [(kv.1, ⟨result.pass, result.detail, kv.2.points, kv.2.label, kv.2.category⟩)],
     acc.2.1 + (if result.pass then kv.2.points else 0),
     acc.2.2 + kv.2.points)
  | .error msg =>
    (acc.1 ++ [(kv.1, ⟨false, str "Error: " ++ msg, kv.2.points, kv.2.label, kv.2.category⟩)],
     acc.2.1,
     acc.2.2 + kv.2.points)

/-- `scoreTeam(team)`, parametric in the per-probe evaluation outcomes. -/
def scoreTeam (evalRun : Str × Check → Except Str Verdict) (team : Team) : Audit :=
  let acc := CHECKS.foldl (scoreStep evalRun) ([], 0, 0)
  { team := team.team, members := team.members, repo := team.repo,
    deploy_url := team.deploy_url, total := acc.2.1, maxTotal := acc.2.2,
    results := acc.1 }

/-- The default, non-throwing evaluation of a registry entry against the
remote state. -/
def evalCheck (st : RepoState) (team : Team) (kv : Str × Check) : Except Str Verdict :=
  .ok (kv.2.run st team)

/-- The stable descending comparison used by `scores.sort((a, b) =>
b.total - a.total)`: `a` may precede `b` exactly when the comparator is
`≤ 0` on `(a, b)`. -/
def scoreLe (a b : Audit) : Bool := decide (b.total ≤ a.total)

/-- An audit as it appears in the output document, with its `rank`. -/
structure Entry where
  score : Audit
  rank : Nat
deriving DecidableEq

/-- The emitted `docs/scores.json` document. -/
structure Output where
  generated_at : Str
  total_possible : Nat
  teams : List Entry
deriving DecidableEq

/-- `Object.values(CHECKS).reduce((s, c) => s + c.points, 0)`. -/
def totalPossibleAll : Nat := CHECKS.foldl (fun s c => s + c.2.points) 0

/-- The `main()` pipeline minus file/console I/O: score every roster
record in order, sort by `total` descending (stable), assign 1-based
ranks, and assemble the output document.  `evalRun team` gives the probe
evaluation outcomes for that team's repository. -/
def main (evalRun : Team → Str × Check → Except Str Verdict)
    (teams : List Team) (now : Str) : Output :=
  let scores := teams.map (fun t => scoreTeam (evalRun t) t)
  let sorted := scores.mergeSort scoreLe
  let ranked := sorted.enum.map (fun p => Entry.mk p.2 (p.1 + 1))
  { generated_at := now, total_possible := totalPossibleAll, teams := ranked }

/-! ## Executor fold characterization -/

/-- The probe result one loop iteration stores for entry `kv`. -/
def stepResult (evalRun : Str × Check → Except Str Verdict) (kv : Str × Check) : ProbeResult :=
  match evalRun kv with
  | .ok r => ⟨r.pass, r.detail, kv.2.points, kv.2.label, kv.2.category⟩
  | .error msg => ⟨false, str "Error: " ++ msg, kv.2.points, kv.2.label, kv.2.category⟩

/-- The points one loop iteration adds to `total` for entry `kv`. -/
def award (evalRun : Str × Check → Except Str Verdict) (kv : Str × Check) : Nat :=
  match evalRun kv with
  | .ok r => if r.pass then kv.2.points else 0
  | .error _ => 0

/-! ## Concrete instances used by the claim witnesses and counterexamples -/

/-- A roster record used by several concrete instances below. -/
def teamA : Team := ⟨str "A", [str "alice"], str "x/y", none⟩

/-- An evaluation in which `pipeline_exists` throws `boom` and every
other probe returns a failed verdict. -/
def evalBoom : Str × Check → Except Str Verdict := fun kv =>
  if kv.1 = str "pipeline_exists" then .error (str "boom")
  else .ok ⟨false, str "d"⟩

/-- A repo state that evaluates no remote calls (every request fails). -/
def stNone : RepoState :=
  { tree := none, file := fun _ => none, runsMain1 := none, runsSuccess3 := none,
    jobs := fun _ => none, artifacts := fun _ => none, packages := none,
    protection := none, http := fun _ => .error (str "fetch failed") }

/-- Jobs of the latest run in the C5 counterexample: the first
name-matching job failed, a later name-matching job succeeded. -/
def jobsC5 : List Job :=
  [⟨str "test-a", some (str "failure")⟩, ⟨str "test-b", some (str "success")⟩]

/-- State for the C5 counterexample: latest run green, jobs `jobsC5`. -/
def stC5 : RepoState :=
  { stNone with
    runsMain1 := some [⟨7, some (str "success"), str "completed", 1, 0, 0⟩],
    jobs := fun _ => some jobsC5 }

/-- State whose first name-matching job succeeded. -/
def stC5pass : RepoState :=
  { stNone with
    runsMain1 := some [⟨7, some (str "success"), str "completed", 1, 0, 0⟩],
    jobs := fun _ => some [⟨str "build", some (str "success")⟩] }

/-- A roster record with a deploy URL. -/
def teamUrl : Team := ⟨str "B", [], str "x/y", some (str "https://example.test/health")⟩

/-- State whose HTTP probe answers 200. -/
def st200 : RepoState := { stNone with http := fun _ => .ok 200 }

/-- State whose HTTP probe answers 500. -/
def st500 : RepoState := { stNone with http := fun _ => .ok 500 }

/-- State with one successful 60-second run. -/
def st1min : RepoState :=
  { stNone with
    runsSuccess3 := some [⟨1, some (str "success"), str "completed", 1, 0, 60000⟩] }

/-- Two nullable file contents that agree once lowercased. -/
def fileRel : Option Str → Option Str → Bool
  | none, none => true
  | some c, some c2 => decide (lowerS c = lowerS c2)
  | _, _ => false

/-- Tree with a single `.yml` workflow file. -/
def treeYml : List TreeEntry := [⟨str ".github/workflows/ci.yml"⟩]

/-- Workflow content `docker build`, lowercase. -/
def stDockerLower : RepoState :=
  { stNone with tree := some treeYml, file := fun _ => some (str "docker build") }

/-- The same workflow content with its letter case changed. -/
def stDockerUpper : RepoState :=
  { stNone with tree := some treeYml, file := fun _ => some (str "DOCKER BUILD") }

/-- Workflow content `Run ESLint`, mixed case. -/
def stLintUpper : RepoState :=
  { stNone with tree := some treeYml, file := fun _ => some (str "Run ESLint") }

/-- The same workflow content, all lowercase. -/
def stLintLower : RepoState :=
  { stNone with tree := some treeYml, file := fun _ => some (str "run eslint") }

/-- A tree whose only workflow file is `ci.yaml`, with rich file contents
that would match every keyword test were the file enumerated. -/
def stYaml : RepoState :=
  { stNone with
    tree := some [⟨str ".github/workflows/ci.yaml"⟩],
    file := fun _ =>
      some (str "docker build lint trivy pytest --cov deploy push main staging prod sonar") }

/-- The points one loop iteration adds to `total` for entry `kv`. -/
theorem foldl_scoreStep_results (evalRun : Str × Check → Except Str Verdict)
    (cs : List (Str × Check)) (acc : List (Str × ProbeResult) × Nat × Nat) :
    (cs.foldl (scoreStep evalRun) acc).1 =
      acc.1 ++ cs.map (fun kv => (kv.1, stepResult evalRun kv)) := by
  induction cs generalizing acc with
  | nil => simp
  | cons kv rest ih =>
    rw [List.foldl_cons, ih]
    cases h : evalRun kv <;> simp [scoreStep, stepResult, h]

theorem foldl_scoreStep_total (evalRun : Str × Check → Except Str Verdict)
    (cs : List (Str × Check)) (acc : List (Str × ProbeResult) × Nat × Nat) :
    (cs.foldl (scoreStep evalRun) acc).2.1 =
      acc.2.1 + (cs.map (award evalRun)).sum := by
  induction cs generalizing acc with
  | nil => simp
  | cons kv rest ih =>
    rw [List.foldl_cons, ih]
    cases h : evalRun kv <;> simp [scoreStep, award, h]
    all_goals omega

theorem foldl_scoreStep_maxTotal (evalRun : Str × Check → Except Str Verdict)
    (cs : List (Str × Check)) (acc : List (Str × ProbeResult) × Nat × Nat) :
    (cs.foldl (scoreStep evalRun) acc).2.2 =
      acc.2.2 + (cs.map (fun kv => kv.2.points)).sum := by
  induction cs generalizing acc with
  | nil => simp
  | cons kv rest ih =>
    rw [List.foldl_cons, ih]
    cases h : evalRun kv <;> simp [scoreStep, h]
    all_goals omega

theorem scoreTeam_results (evalRun : Str × Check → Except Str Verdict) (team : Team) :
    (scoreTeam evalRun team).results = CHECKS.map (fun kv => (kv.1, stepResult evalRun kv)) := by
  simpa [scoreTeam] using foldl_scoreStep_results evalRun CHECKS ([], 0, 0)

theorem scoreTeam_total (evalRun : Str × Check → Except Str Verdict) (team : Team) :
    (scoreTeam evalRun team).total = (CHECKS.map (award evalRun)).sum := by
  simpa [scoreTeam] using foldl_scoreStep_total evalRun CHECKS ([], 0, 0)

theorem scoreTeam_maxTotal (evalRun : Str × Check → Except Str Verdict) (team : Team) :
    (scoreTeam evalRun team).maxTotal = (CHECKS.map (fun kv => kv.2.points)).sum := by
  simpa [scoreTeam] using foldl_scoreStep_maxTotal evalRun CHECKS ([], 0, 0)

theorem totalPossibleAll_eq_sum :
    totalPossibleAll = (CHECKS.map (fun kv => kv.2.points)).sum := by decide

/-- Every element of an `enum` is an element of the underlying list. -/
theorem snd_mem_of_mem_enum {α : Type _} {p : Nat × α} {l : List α}
    (hp : p ∈ l.enum) : p.2 ∈ l := by
  rw [List.mem_enum_iff_getElem?] at hp
  exact List.getElem?_mem hp

/-! ## C1: `totalPossible` is the registry-wide point sum -/

/-- C1: for every roster record, the audit's `maxTotal` is the sum of
`points` over the whole fixed registry, whatever the probe evaluation
outcomes (including thrown errors); the document's `total_possible` is
that same sum; hence `maxTotal` is identical across all audited
repositories. -/
theorem C1_totalPossible_is_registry_sum
    (evalRun : Team → Str × Check → Except Str Verdict) (teams : List Team) (now : Str) :
    (∀ e ∈ (main evalRun teams now).teams,
      e.score.maxTotal = (CHECKS.map (fun kv => kv.2.points)).sum) ∧
    (main evalRun teams now).total_possible = (CHECKS.map (fun kv => kv.2.points)).sum ∧
    ∀ (ev : Str × Check → Except Str Verdict) (team : Team),
      (scoreTeam ev team).maxTotal = (CHECKS.map (fun kv => kv.2.points)).sum := by
  refine ⟨?_, ?_, fun ev team => scoreTeam_maxTotal ev team⟩
  · intro e he
    simp only [main, List.mem_map] at he
    obtain ⟨p, hp, rfl⟩ := he
    have h2 := snd_mem_of_mem_enum hp
    rw [List.mem_mergeSort, List.mem_map] at h2
    obtain ⟨t, -, hEq⟩ := h2
    show p.2.maxTotal = _
    rw [← hEq]
    exact scoreTeam_maxTotal (evalRun t) t
  · simp [main, totalPossibleAll_eq_sum]

/-- Witness for C1 at a concrete roster and a throwing evaluation. -/
theorem C1_witness :
    (main (fun _ => evalBoom) [teamA] (str "now")).total_possible = 130 ∧
    (main (fun _ => evalBoom) [teamA] (str "now")).teams.map
      (fun e => e.score.maxTotal) = [130] := by
  have h := C1_totalPossible_is_registry_sum (fun _ => evalBoom) [teamA] (str "now")
  have hsum : (CHECKS.map (fun kv => kv.2.points)).sum = 130 := by decide
  refine ⟨by rw [h.2.1, hsum], ?_⟩
  have hlen : (main (fun _ => evalBoom) [teamA] (str "now")).teams.length = 1 := by
    simp [main]
  obtain ⟨e, he⟩ := List.length_eq_one.mp hlen
  rw [he]
  have hmem : e ∈ (main (fun _ => evalBoom) [teamA] (str "now")).teams := by
    rw [he]
    exact List.mem_singleton_self e
  simp [h.1 e hmem, hsum]

/-! ## C3: one leaderboard entry per roster record -/

/-- C3: the number of entries in the emitted document equals the number
of roster records, whatever the probe outcomes — no record is dropped. -/
theorem C3_no_silent_drops
    (evalRun : Team → Str × Check → Except Str Verdict) (teams : List Team) (now : Str) :
    (main evalRun teams now).teams.length = teams.length := by
  simp [main]

/-! ## C4: per-probe error isolation (corrected detail string) -/

/-- C4 counterexample: a probe that throws `boom` is recorded with
`detail = "Error: boom"`, not `"internal error: boom"` as the claim
states. -/
theorem C4_counterexample :
    (scoreTeam evalBoom teamA).results.lookup (str "pipeline_exists") =
      some ⟨false, str "Error: boom", 5, str "Pipeline exists", str "fundamentals"⟩ ∧
    str "Error: boom" ≠ str "internal error: boom" := by decide

/-- C4 as amended: an evaluation error in one probe is caught; that probe
is recorded as failed with `detail = "Error: <message>"`, awards no
points, and every registered probe id still appears (exactly once, in
registry order) in `results`; the team's `total` is still the sum of the
per-probe awards, the errored probe contributing `0`; and the remaining
repositories are still evaluated (one leaderboard entry per roster
record). -/
theorem C4_error_isolation (evalRun : Str × Check → Except Str Verdict) (team : Team)
    (kv : Str × Check) (msg : Str) (hmem : kv ∈ CHECKS) (herr : evalRun kv = .error msg) :
    (scoreTeam evalRun team).results.map Prod.fst = CHECKS.map Prod.fst ∧
    (kv.1, (⟨false, str "Error: " ++ msg, kv.2.points, kv.2.label, kv.2.category⟩ : ProbeResult))
      ∈ (scoreTeam evalRun team).results ∧
    award evalRun kv = 0 ∧
    (scoreTeam evalRun team).total = (CHECKS.map (award evalRun)).sum ∧
    (∀ (evT : Team → Str × Check → Except Str Verdict) (teams : List Team) (now : Str),
      (main evT teams now).teams.length = teams.length) := by
  refine ⟨?_, ?_, ?_, scoreTeam_total evalRun team, ?_⟩
  · rw [scoreTeam_results, List.map_map]
    rfl
  · rw [scoreTeam_results]
    refine List.mem_map.mpr ⟨kv, hmem, ?_⟩
    simp [stepResult, herr]
  · simp [award, herr]
  · intro evT teams now
    simp [main]

/-- Witness for C4 at the concrete throwing evaluation. -/
theorem C4_witness :
    (str "pipeline_exists",
      (⟨false, str "Error: boom", 5, str "Pipeline exists", str "fundamentals"⟩ : ProbeResult))
      ∈ (scoreTeam evalBoom teamA).results ∧
    (scoreTeam evalBoom teamA).results.map Prod.fst = CHECKS.map Prod.fst := by
  have h := C4_error_isolation evalBoom teamA (CHECKS.get ⟨0, by decide⟩) (str "boom")
    (List.get_mem CHECKS 0 (by decide)) (by rfl)
  exact ⟨h.2.1, h.1⟩

/-! ## C2: stable descending sort and 1-based ranks -/

theorem scoreLe_trans (a b c : Audit) : scoreLe a b → scoreLe b c → scoreLe a c := by
  simp only [scoreLe, decide_eq_true_eq]
  omega

theorem scoreLe_total (a b : Audit) : scoreLe a b || scoreLe b a := by
  simp only [scoreLe, Bool.or_eq_true, decide_eq_true_eq]
  omega

/-- All elements of a tie class (equal `total`) are mutually `scoreLe`. -/
theorem pairwise_scoreLe_filter_total (n : Nat) (l : List Audit) :
    (l.filter (fun a => a.total == n)).Pairwise (fun a b => scoreLe a b) := by
  induction l with
  | nil => simp
  | cons a l ih =>
    by_cases h : a.total = n
    · rw [List.filter_cons_of_pos (by simp [h])]
      refine List.Pairwise.cons (fun b hb => ?_) ih
      have hb2 : b.total = n := by
        have := List.of_mem_filter hb
        simpa using this
      simp [scoreLe, h, hb2]
    · rwa [List.filter_cons_of_neg (by simp [h])]

/-- C2: the leaderboard is the input audit sequence stably sorted by
`total` descending; ranks are exactly `1..N` in order; for `i < j` the
`total` at `i` dominates the one at `j`; the entries are a permutation of
the input audits; and each tie class (`total = n`) appears in input
order. -/
theorem C2_sorted_ranked_stable
    (evalRun : Team → Str × Check → Except Str Verdict) (teams : List Team) (now : Str) :
    ((main evalRun teams now).teams.map Entry.rank =
      (List.range teams.length).map (· + 1)) ∧
    (∀ i j (hi : i < (main evalRun teams now).teams.length)
        (hj : j < (main evalRun teams now).teams.length), i < j →
      ((main evalRun teams now).teams.get ⟨j, hj⟩).score.total ≤
        ((main evalRun teams now).teams.get ⟨i, hi⟩).score.total) ∧
    ((main evalRun teams now).teams.map Entry.score =
      (teams.map (fun t => scoreTeam (evalRun t) t)).mergeSort scoreLe) ∧
    ((main evalRun teams now).teams.map Entry.score).Perm
      (teams.map (fun t => scoreTeam (evalRun t) t)) ∧
    (∀ n : Nat,
      ((teams.map (fun t => scoreTeam (evalRun t) t)).mergeSort scoreLe).filter
          (fun a => a.total == n) =
        (teams.map (fun t => scoreTeam (evalRun t) t)).filter (fun a => a.total == n)) := by
  have hscore : (main evalRun teams now).teams.map Entry.score =
      (teams.map (fun t => scoreTeam (evalRun t) t)).mergeSort scoreLe := by
    simp only [main, List.map_map]
    have : (Entry.score ∘ fun p : Nat × Audit => Entry.mk p.2 (p.1 + 1)) = Prod.snd := rfl
    rw [this, List.enum_map_snd]
  refine ⟨?_, ?_, hscore, ?_, ?_⟩
  · simp only [main, List.map_map]
    have : (Entry.rank ∘ fun p : Nat × Audit => Entry.mk p.2 (p.1 + 1)) =
        (fun n => n + 1) ∘ Prod.fst := rfl
    rw [this, ← List.map_map, List.enum_map_fst]
    simp [main]
  · intro i j hi hj hij
    have hpw := List.sorted_mergeSort scoreLe_trans scoreLe_total
      (teams.map (fun t => scoreTeam (evalRun t) t))
    rw [List.pairwise_iff_getElem] at hpw
    have hlen : ((teams.map (fun t => scoreTeam (evalRun t) t)).mergeSort scoreLe).length =
        (main evalRun teams now).teams.length := by
      simp [main]
    have hget : ∀ (k : Nat) (hk : k < (main evalRun teams now).teams.length),
        (main evalRun teams now).teams.get ⟨k, hk⟩ =
          Entry.mk (((teams.map (fun t => scoreTeam (evalRun t) t)).mergeSort
            scoreLe).get ⟨k, hlen ▸ hk⟩) (k + 1) := by
      intro k hk
      simp [main, List.get_eq_getElem, List.getElem_enum]
    have h := hpw i j (hlen ▸ hi) (hlen ▸ hj) hij
    rw [hget i hi, hget j hj]
    simpa [scoreLe, List.get_eq_getElem] using h
  · rw [hscore]
    exact List.mergeSort_perm (teams.map (fun t => scoreTeam (evalRun t) t)) scoreLe
  · intro n
    set audits := teams.map (fun t => scoreTeam (evalRun t) t) with haudits
    have hsub : List.Sublist (audits.filter (fun a => a.total == n))
        (audits.mergeSort scoreLe) :=
      List.sublist_mergeSort scoreLe_trans scoreLe_total
        (pairwise_scoreLe_filter_total n audits) (List.filter_sublist audits)
    have hsub2 : List.Sublist
        ((audits.filter (fun a => a.total == n)).filter (fun a => a.total == n))
        ((audits.mergeSort scoreLe).filter (fun a => a.total == n)) :=
      hsub.filter (fun a => a.total == n)
    rw [List.filter_filter] at hsub2
    simp only [Bool.and_self] at hsub2
    have hperm : List.Perm ((audits.mergeSort scoreLe).filter (fun a => a.total == n))
        (audits.filter (fun a => a.total == n)) :=
      (List.mergeSort_perm audits scoreLe).filter (fun a => a.total == n)
    exact (hsub2.eq_of_length hperm.length_eq.symm).symm

/-- Witness for C2 at a concrete two-team roster: ranks are `[1, 2]`. -/
theorem C2_witness :
    (main (fun _ => evalBoom) [teamA, teamA] (str "now")).teams.map Entry.rank = [1, 2] := by
  have h := (C2_sorted_ranked_stable (fun _ => evalBoom) [teamA, teamA] (str "now")).1
  rw [h]
  decide

/-! ## C5: `tests_pass` inspects only the FIRST name-matching job -/

/-- C5 counterexample: the latest run is green and a name-matching job
with conclusion `success` exists (`test-b`), yet the probe fails, because
`jobs.find(...)` stops at the first name-matching job (`test-a`, failed).
This refutes "for every job list containing some matching job with
conclusion success, the probe passes". -/
theorem C5_counterexample :
    stC5.runsMain1 = some [⟨7, some (str "success"), str "completed", 1, 0, 0⟩] ∧
    stC5.jobs 7 = some jobsC5 ∧
    (∃ j ∈ jobsC5, jobNameHit j.name = true ∧ j.conclusion = some (str "success")) ∧
    (tests_pass stC5).pass = false := by
  refine ⟨rfl, rfl, ?_, by decide⟩
  exact ⟨⟨str "test-b", some (str "success")⟩, by decide, by decide, rfl⟩

/-- C5 as amended: the probe passes iff the latest run on `main` exists
with conclusion `success`, the job list is readable, and the FIRST job
whose name contains `test`, `ci` or `build` (case-insensitively) exists
and has conclusion `success`. -/
theorem C5_tests_pass_characterization (st : RepoState) :
    (tests_pass st).pass = true ↔
      ∃ last rest, st.runsMain1 = some (last :: rest) ∧
        last.conclusion = some (str "success") ∧
        ∃ js, st.jobs last.id = some js ∧
          ∃ j, js.find? (fun j => jobNameHit j.name) = some j ∧
            j.conclusion = some (str "success") := by
  unfold tests_pass
  cases hr : st.runsMain1 with
  | none => simp
  | some runs =>
    cases runs with
    | nil => simp
    | cons last rest =>
      dsimp only
      by_cases hc : last.conclusion = some (str "success")
      · rw [if_neg (by simp [hc])]
        cases hj : st.jobs last.id with
        | none => simp [hc, hj]
        | some js =>
          cases hfind : js.find? (fun j => jobNameHit j.name) with
          | none => simp [hc, hj, hfind]
          | some j => simp [hc, hj, hfind]
      · rw [if_pos (by simp [hc])]
        simp [hc]

/-- Witness for C5's characterization at a concrete passing state. -/
theorem C5_witness : (tests_pass stC5pass).pass = true :=
  (C5_tests_pass_characterization stC5pass).mpr
    ⟨⟨7, some (str "success"), str "completed", 1, 0, 0⟩, [], rfl, rfl,
      [⟨str "build", some (str "success")⟩], rfl,
      ⟨str "build", some (str "success")⟩, by decide, rfl⟩

/-! ## C7: the `deployed` probe (corrected detail string) -/

/-- C7 counterexample: with no deploy URL the probe's detail is
`"No deploy_url in teams.json"`, not `"no deploy URL provided"` as the
claim states. -/
theorem C7_counterexample :
    deployed stNone teamA = ⟨false, str "No deploy_url in teams.json"⟩ ∧
    str "No deploy_url in teams.json" ≠ str "no deploy URL provided" := by decide

/-- C7 as amended: with an absent (or empty, hence falsy) `deploy_url`
the probe fails immediately with detail `"No deploy_url in teams.json"`
— for every HTTP outcome, i.e. without consulting the network; with a
non-empty URL it passes iff the fetch returned a 2xx status. -/
theorem C7_deployed_characterization (st : RepoState) (team : Team) :
    ((team.deploy_url = none ∨ team.deploy_url = some (str "")) →
      deployed st team = ⟨false, str "No deploy_url in teams.json"⟩) ∧
    (∀ url, team.deploy_url = some url → url ≠ [] →
      ((deployed st team).pass = true ↔
        ∃ status, st.http url = .ok status ∧ 200 ≤ status ∧ status ≤ 299)) := by
  constructor
  · rintro (h | h) <;> simp [deployed, h, str]
  · intro url hu hne
    simp only [deployed, hu]
    rw [if_neg (by simp [List.isEmpty_iff, hne])]
    cases hh : st.http url with
    | ok status => simp [hh, decide_eq_true_iff]
    | error m => simp [hh]

/-- Witness for C7: no URL fails with the source's detail; a 200 response
passes; a 500 response fails. -/
theorem C7_witness :
    deployed stNone teamA = ⟨false, str "No deploy_url in teams.json"⟩ ∧
    (deployed st200 teamUrl).pass = true ∧
    (deployed st500 teamUrl).pass = false := by
  refine ⟨(C7_deployed_characterization stNone teamA).1 (Or.inl rfl), ?_, ?_⟩
  · exact ((C7_deployed_characterization st200 teamUrl).2 _ rfl (by decide)).mpr
      ⟨200, rfl, by decide, by decide⟩
  · have h := (C7_deployed_characterization st500 teamUrl).2
      (str "https://example.test/health") rfl (by decide)
    rw [← Bool.not_eq_true, h]
    rintro ⟨s, hs, -, h2⟩
    have hs2 : s = 500 := by simpa [st500, stNone] using hs.symm
    omega

/-! ## C8: `pipeline_fast` mean-duration threshold -/

/-- C8: with no successful runs the probe fails (a verdict, not an
error) with detail `"No successful runs"`; with a non-empty list of (up
to 3) successful runs it passes iff the mean of `updated_at − created_at`
in milliseconds is strictly below 3 minutes. -/
theorem C8_pipeline_fast_characterization (st : RepoState) :
    ((st.runsSuccess3 = none ∨ st.runsSuccess3 = some []) →
      pipeline_fast st = ⟨false, str "No successful runs"⟩) ∧
    (∀ runs, st.runsSuccess3 = some runs → runs ≠ [] →
      ((pipeline_fast st).pass = true ↔
        (((runs.foldl (fun acc r => acc + (r.updated_at - r.created_at)) 0 : Int) : ℚ) /
          (runs.length : ℚ) < 3 * 60000)) ∧
      (pipeline_fast st).detail =
        str "Average: " ++
          toFixed1 (((runs.foldl (fun acc r => acc + (r.updated_at - r.created_at)) 0 : Int) : ℚ) /
            (runs.length : ℚ) / 60000) ++
          str " min (last " ++ natStr runs.length ++ str " runs)") := by
  constructor
  · rintro (h | h) <;> simp [pipeline_fast, h]
  · intro runs hr hne
    cases runs with
    | nil => exact absurd rfl hne
    | cons r rest =>
      simp only [pipeline_fast, hr]
      refine ⟨?_, trivial⟩
      rw [decide_eq_true_iff, div_lt_iff₀ (by norm_num : (0:ℚ) < 60000)]

/-- Witness for C8: no successful runs fail; a single 60-second run
passes (mean 1 minute < 3 minutes). -/
theorem C8_witness :
    pipeline_fast stNone = ⟨false, str "No successful runs"⟩ ∧
    (pipeline_fast st1min).pass = true := by
  refine ⟨(C8_pipeline_fast_characterization stNone).1 (Or.inl rfl), ?_⟩
  refine (((C8_pipeline_fast_characterization st1min).2 _ rfl (by decide)).1).mpr ?_
  norm_num

/-! ## C9: `no_secrets_in_code` is fail-open on absent files -/

theorem noSecretsScan_pass_iff (fetch : Str → Option Str) (fs : List Str) :
    (noSecretsScan fetch fs).pass = true ↔
      ∀ f ∈ fs, ∀ c, fetch f = some c → matchesSecretPattern c = false := by
  induction fs with
  | nil => simp [noSecretsScan]
  | cons f rest ih =>
    simp only [noSecretsScan]
    cases hf : fetch f with
    | none => simp [hf, List.forall_mem_cons, ih]
    | some c =>
      by_cases hempty : c.isEmpty
      · have hc : c = [] := List.isEmpty_iff.mp hempty
        subst hc
        simp only [if_pos hempty]
        have hm : matchesSecretPattern [] = false := by decide
        simp [hf, List.forall_mem_cons, ih, hm]
      · by_cases hm : matchesSecretPattern c
        · simp [hf, hempty, hm, List.forall_mem_cons]
        · simp [hf, hempty, hm, List.forall_mem_cons, ih]

/-- C9: the probe passes iff no scanned well-known file has fetched
content matching a secret pattern; in particular, when every scanned file
is absent it passes (fail-open), whereas a tree-reading probe such as
`pipeline_exists` fails when its data is absent. -/
theorem C9_no_secrets_fail_open (st : RepoState) :
    ((no_secrets_in_code st).pass = true ↔
      ∀ f ∈ secretFiles, ∀ c, st.file f = some c → matchesSecretPattern c = false) ∧
    ((∀ f ∈ secretFiles, st.file f = none) → (no_secrets_in_code st).pass = true) ∧
    (st.tree = none → (pipeline_exists st).pass = false) := by
  refine ⟨noSecretsScan_pass_iff st.file secretFiles, fun h => ?_, fun h => ?_⟩
  · rw [no_secrets_in_code, noSecretsScan_pass_iff]
    intro f hf c hc
    rw [h f hf] at hc
    cases hc
  · simp [pipeline_exists, h]

/-- Witness for C9: with every fetch absent, the probe passes. -/
theorem C9_witness : (no_secrets_in_code stNone).pass = true :=
  (C9_no_secrets_fail_open stNone).2.1 (fun _ _ => rfl)

/-! ## C10: only `.yml` workflow files are enumerated -/

/-- A path ending in `.yaml` does not end in `.yml`. -/
theorem not_yml_of_yaml {p : Str} (h : (str ".yaml").isSuffixOf p = true) :
    (str ".yml").isSuffixOf p = false := by
  by_contra hc
  rw [Bool.not_eq_false] at hc
  rw [List.isSuffixOf_iff_suffix] at h hc
  rcases List.suffix_or_suffix_of_suffix hc h with h2 | h2
  · exact absurd h2 (by decide)
  · exact absurd h2 (by decide)

/-- If every workflow-directory path carries the `.yaml` extension, the
scorer's workflow enumeration is empty. -/
theorem wfFilter_eq_nil {t : List TreeEntry}
    (h : ∀ e ∈ t, (str ".github/workflows/").isPrefixOf e.path = true →
      (str ".yaml").isSuffixOf e.path = true) :
    wfFilter t = [] := by
  rw [wfFilter, List.filter_eq_nil_iff]
  intro e he hb
  rw [Bool.and_eq_true] at hb
  exact absurd hb.2 (by simp [not_yml_of_yaml (h e he hb.1)])

/-- C10: on a tree whose workflow-definition files all use the `.yaml`
extension, `pipeline_exists` fails reporting `0 workflow(s) found`, and
every workflow-enumerating probe fails its workflow-content condition:
lint, tests-exist, coverage, docker build, security scan, auto-deploy and
multi-environment fail outright, and `quality_gate`'s verdict collapses
to its non-workflow (sonar-file) branch. -/
theorem C10_yaml_workflows_invisible (st : RepoState) (t : List TreeEntry)
    (ht : st.tree = some t)
    (h : ∀ e ∈ t, (str ".github/workflows/").isPrefixOf e.path = true →
      (str ".yaml").isSuffixOf e.path = true) :
    pipeline_exists st = ⟨false, str "0 workflow(s) found"⟩ ∧
    lint_pass st = ⟨false, str "No lint step found in workflows"⟩ ∧
    (tests_exist st).pass = false ∧
    coverage_70 st = ⟨false, str "No coverage step found in CI"⟩ ∧
    docker_builds st = ⟨false, str "No docker build step in CI"⟩ ∧
    security_scan st = ⟨false, str "No security scan found in workflows"⟩ ∧
    quality_gate st = (if (sonarFilter t).length > 0 then ⟨true, str "Sonar config found"⟩
      else ⟨false, str "No quality gate configured"⟩) ∧
    auto_deploy st = ⟨false, str "No auto-deploy workflow found"⟩ ∧
    multi_env st = ⟨false, str "Single environment or none"⟩ := by
  have hw : wfFilter t = [] := wfFilter_eq_nil h
  refine ⟨?_, ?_, ?_, ?_, ?_, ?_, ?_, ?_, ?_⟩
  · simp only [pipeline_exists, ht]
    rw [hw]
    decide
  · simp only [lint_pass, ht]
    rw [hw]
    rfl
  · simp only [tests_exist, ht]
    rw [hw]
    split <;> rfl
  · simp only [coverage_70, ht]
    rw [hw]
    rfl
  · simp only [docker_builds, ht]
    rw [hw]
    rfl
  · simp only [security_scan, ht]
    rw [hw]
    rfl
  · simp only [quality_gate, ht]
    rw [hw]
    rfl
  · simp only [auto_deploy, ht]
    rw [hw]
    rfl
  · simp only [multi_env, ht]
    rw [hw]
    rfl

/-- Witness for C10 at the concrete `.yaml`-only tree. -/
theorem C10_witness :
    pipeline_exists stYaml = ⟨false, str "0 workflow(s) found"⟩ ∧
    lint_pass stYaml = ⟨false, str "No lint step found in workflows"⟩ ∧
    docker_builds stYaml = ⟨false, str "No docker build step in CI"⟩ := by
  have h := C10_yaml_workflows_invisible stYaml [⟨str ".github/workflows/ci.yaml"⟩]
    rfl (by decide)
  exact ⟨h.1, h.2.1, h.2.2.2.2.1⟩

/-! ## C6: case-insensitivity of the pipeline-content probes -/

/-- Two nullable file contents that agree once lowercased. -/
theorem lowerS_isEmpty {c c2 : Str} (h : lowerS c = lowerS c2) :
    c.isEmpty = c2.isEmpty := by
  cases c <;> cases c2 <;> simp_all [lowerS]

/-- Scanning the same workflow list with contents equal up to case and
content tests that only inspect the lowercased content yields the same
hit file with contents equal up to case (or no hit on both sides). -/
theorem findWf_congr_cases {f f2 : Str → Option Str} {hit hit2 : Str → Bool}
    (hf : ∀ p, fileRel (f p) (f2 p) = true)
    (hhit : ∀ c c2, lowerS c = lowerS c2 → hit c = hit2 c2) :
    ∀ l : List TreeEntry,
      (findWf f hit l = none ∧ findWf f2 hit2 l = none) ∨
      (∃ wf c c2, findWf f hit l = some (wf, c) ∧ findWf f2 hit2 l = some (wf, c2) ∧
        lowerS c = lowerS c2) := by
  intro l
  induction l with
  | nil => exact Or.inl ⟨rfl, rfl⟩
  | cons wf rest ih =>
    have hrel := hf wf.path
    cases h1 : f wf.path with
    | none =>
      cases h2 : f2 wf.path with
      | none => simpa only [findWf, h1, h2] using ih
      | some c2 =>
        rw [h1, h2] at hrel
        simp [fileRel] at hrel
    | some c =>
      cases h2 : f2 wf.path with
      | none =>
        rw [h1, h2] at hrel
        simp [fileRel] at hrel
      | some c2 =>
        rw [h1, h2] at hrel
        have hlow : lowerS c = lowerS c2 := by simpa [fileRel] using hrel
        have hemp : c.isEmpty = c2.isEmpty := lowerS_isEmpty hlow
        simp only [findWf, h1, h2]
        by_cases he : c.isEmpty = true
        · rw [if_pos he, if_pos (hemp.symm.trans he)]
          exact ih
        · rw [if_neg he, if_neg (fun hx => he (hemp.trans hx))]
          by_cases hb : hit2 c2 = true
          · rw [hhit c c2 hlow, if_pos hb, if_pos hb]
            exact Or.inr ⟨wf, c, c2, rfl, rfl, hlow⟩
          · rw [hhit c c2 hlow, if_neg hb, if_neg hb]
            exact ih

theorem lintHit_congr {c c2 : Str} (h : lowerS c = lowerS c2) :
    lintHit c = lintHit c2 := by
  simp only [lintHit]
  rw [h]

theorem secFound_congr {c c2 : Str} (h : lowerS c = lowerS c2) :
    secFound c = secFound c2 := by
  simp only [secFound]
  rw [h]

theorem qualityFound_congr {c c2 : Str} (h : lowerS c = lowerS c2) :
    qualityFound c = qualityFound c2 := by
  simp only [qualityFound]
  rw [h]

theorem autoDeployHit_congr {c c2 : Str} (h : lowerS c = lowerS c2) :
    autoDeployHit c = autoDeployHit c2 := by
  simp only [autoDeployHit]
  rw [h]

theorem multiEnvHit_congr {c c2 : Str} (h : lowerS c = lowerS c2) :
    multiEnvHit c = multiEnvHit c2 := by
  simp only [multiEnvHit]
  rw [h]

/-- C6 counterexample: `docker_builds` matches `content` without
`toLowerCase()`, so changing only the letter case of the workflow content
flips its verdict — refuting case-insensitivity for the docker-build
probe. -/
theorem C6_counterexample :
    lowerS (str "DOCKER BUILD") = lowerS (str "docker build") ∧
    (docker_builds stDockerLower).pass = true ∧
    (docker_builds stDockerUpper).pass = false := by decide

/-- C6 as amended: of the listed pipeline-content probes, lint, security
scan, quality gate, auto-deploy and multi-environment are case-insensitive
in the workflow contents — on the same tree, file contents equal up to
case give identical verdicts — but `docker_builds` (and the coverage
keyword scan) test the raw content, so case changes can flip them. -/
theorem C6_keyword_case_insensitivity (st st2 : RepoState)
    (ht : st.tree = st2.tree)
    (hf : ∀ p, fileRel (st.file p) (st2.file p) = true) :
    lint_pass st = lint_pass st2 ∧
    security_scan st = security_scan st2 ∧
    quality_gate st = quality_gate st2 ∧
    auto_deploy st = auto_deploy st2 ∧
    multi_env st = multi_env st2 := by
  refine ⟨?_, ?_, ?_, ?_, ?_⟩
  · unfold lint_pass
    rw [← ht]
    cases htr : st.tree with
    | none => rfl
    | some t =>
      dsimp only
      rcases findWf_congr_cases hf (fun _ _ h => lintHit_congr h) (wfFilter t) with
        ⟨h1, h2⟩ | ⟨wf, c, c2, h1, h2, hlow⟩ <;> rw [h1, h2]
  · unfold security_scan
    rw [← ht]
    cases htr : st.tree with
    | none => rfl
    | some t =>
      dsimp only
      rcases @findWf_congr_cases st.file st2.file
          (fun c => !(secFound c).isEmpty) (fun c => !(secFound c).isEmpty) hf
          (fun c c2 h => by dsimp only; rw [secFound_congr h]) (wfFilter t) with
        ⟨h1, h2⟩ | ⟨wf, c, c2, h1, h2, hlow⟩ <;> rw [h1, h2]
      dsimp only
      rw [secFound_congr hlow]
  · unfold quality_gate
    rw [← ht]
    cases htr : st.tree with
    | none => rfl
    | some t =>
      dsimp only
      rcases @findWf_congr_cases st.file st2.file
          (fun c => !(qualityFound c).isEmpty) (fun c => !(qualityFound c).isEmpty) hf
          (fun c c2 h => by dsimp only; rw [qualityFound_congr h]) (wfFilter t) with
        ⟨h1, h2⟩ | ⟨wf, c, c2, h1, h2, hlow⟩ <;> rw [h1, h2]
      dsimp only
      rw [qualityFound_congr hlow]
  · unfold auto_deploy
    rw [← ht]
    cases htr : st.tree with
    | none => rfl
    | some t =>
      dsimp only
      rcases findWf_congr_cases hf (fun _ _ h => autoDeployHit_congr h) (wfFilter t) with
        ⟨h1, h2⟩ | ⟨wf, c, c2, h1, h2, hlow⟩ <;> rw [h1, h2]
  · unfold multi_env
    rw [← ht]
    cases htr : st.tree with
    | none => rfl
    | some t =>
      dsimp only
      rcases findWf_congr_cases hf (fun _ _ h => multiEnvHit_congr h) (wfFilter t) with
        ⟨h1, h2⟩ | ⟨wf, c, c2, h1, h2, hlow⟩ <;> rw [h1, h2]

/-- Witness for C6 at two concrete states that differ only in letter
case. -/
theorem C6_witness : lint_pass stLintUpper = lint_pass stLintLower := by
  refine (C6_keyword_case_insensitivity stLintUpper stLintLower rfl ?_).1
  intro p
  show fileRel (some (str "Run ESLint")) (some (str "run eslint")) = true
  decide

end CicdScore
